import Mathlib

/-!
Verification of the NSERC-bot-trader data-acquisition pipeline.

This file gives a shallow embedding in Lean 4 of the functions of
`src/getData/intraday.py`, `src/intraday.py` and `src/getData/read.py`
that the specification talks about, and proves or refutes the spec's
claims about them.

Modelling conventions:
* Python numbers are modelled exactly: `int` as `ℤ`/`ℕ`, `float` values
  as `ℚ` (Python `round` on exact values is round-half-to-even).
* `datetime` values within one trading day are modelled as minutes since
  midnight (09:30 = 570, 16:00 = 960); the run date itself is fixed.
* Fallible Python code (raised exceptions) is modelled with `Except String`.
* File contents are modelled as lists of rows; the parquet read/write
  round-trip is modelled as the identity on those rows.
* The IEEE binary32 `price` field of the fixed binary record is modelled
  by its 32-bit pattern (a `ℕ < 2^32`); the conversion real → binary32
  happens before `file_write` is called and is outside the model.
-/

set_option maxHeartbeats 1000000

instance {ε α : Type} [DecidableEq ε] [DecidableEq α] : DecidableEq (Except ε α) := fun x y =>
  match x, y with
  | .ok a, .ok b => if h : a = b then .isTrue (by rw [h]) else .isFalse (by simpa using h)
  | .error a, .error b => if h : a = b then .isTrue (by rw [h]) else .isFalse (by simpa using h)
  | .ok _, .error _ => .isFalse (by simp)
  | .error _, .ok _ => .isFalse (by simp)

/-- Whether an `Except` value is an error. -/
def isErrorE {ε α : Type} : Except ε α → Bool
  | .error _ => true
  | .ok _ => false

namespace GetData

/-- Python `range(0, stop, step)` for `step > 0`: the indices
`0, step, 2*step, ...` strictly below `stop`.  (`step = 0` raises in
Python and is outside the model.) -/
def pyRange0 (stop step : ℕ) : List ℕ :=
  (List.range ((stop + step - 1) / step)).map (fun i => i * step)

/-- Python `range(start, stop, step)` over integers, for `step > 0`. -/
def pyRangeZ (start stop : ℤ) (step : ℕ) : List ℤ :=
  (List.range (((stop - start).toNat + step - 1) / step)).map (fun i => start + step * i)

/-- `create_sublist` of `src/getData/intraday.py` (line 284):
`[list[i:i + n] for i in range(0, len(list), n)]`.
A Python slice `list[i:i+n]` is `(l.drop i).take n`. -/
def create_sublist {α : Type} (l : List α) (n : ℕ) : List (List α) :=
  (pyRange0 l.length n).map (fun i => ((l.drop i).take n))

/-- Python `round` on an exact value: round half to even. -/
def roundHalfEven (q : ℚ) : ℤ :=
  if Int.fract q < 1 / 2 then ⌊q⌋
  else if 1 / 2 < Int.fract q then ⌊q⌋ + 1
  else if ⌊q⌋ % 2 = 0 then ⌊q⌋ else ⌊q⌋ + 1

/-- `round_to_multiple` of `src/getData/intraday.py` (line 272):
`base * round(x/base)`. -/
def round_to_multiple (x : ℚ) (base : ℤ) : ℤ :=
  base * roundHalfEven (x / (base : ℚ))

/-- `get_strike_range` of `src/getData/intraday.py` (line 297).
Explicit bounds are rounded to the strike increment 5; raises if the
lower bound exceeds the upper; otherwise returns
`range(starting_strike, ending_strike, 5)` (upper bound exclusive). -/
def get_strike_range (number_of_strikes : ℤ) (opening_strike : ℤ)
    (starting_strike ending_strike : Option ℤ) : Except String (List ℤ) :=
  let ss : ℤ :=
    match starting_strike with
    | none => opening_strike - 5 * number_of_strikes
    | some v => round_to_multiple (v : ℚ) 5
  let es : ℤ :=
    match ending_strike with
    | none => opening_strike + 5 * number_of_strikes
    | some v => round_to_multiple (v : ℚ) 5
  if es < ss then Except.error ("starting_strike is greater than ending_strike")
  else Except.ok (pyRangeZ ss es 5)

/-- `pd.date_range(start, end, freq=step minutes)` on times of one day,
as minutes since midnight: `start, start+step, ...` up to and including
`end` when aligned (empty when `end < start`). -/
def date_range (start stop step : ℕ) : List ℕ :=
  if stop < start then []
  else (List.range ((stop - start) / step + 1)).map (fun i => start + step * i)

/-- Validity check of an explicit `starting_time` in `get_time_intervals`
(line 250): error when it is not one of the session boundaries or is the
last boundary 16:00. -/
def check_start (intervals : List ℕ) (starting_time : Option ℕ) : Except String ℕ :=
  match starting_time with
  | none => Except.ok 570
  | some s =>
    if s ∉ intervals ∨ s = intervals.getLastD 0 then
      Except.error ("starting_time must be every 30 mins of the trading day (i.e. 9:30, 10:00, 10:30 ... 15:30).")
    else Except.ok s

/-- Validity check of an explicit `ending_time` in `get_time_intervals`
(line 256): error when it is not one of the session boundaries or is the
first boundary 09:30. -/
def check_end (intervals : List ℕ) (ending_time : Option ℕ) : Except String ℕ :=
  match ending_time with
  | none => Except.ok 960
  | some e =>
    if e ∉ intervals ∨ e = intervals.headD 0 then
      Except.error ("ending_time must be every 30 mins of the trading day (i.e. 10:00, 10:30 ... 15:30, 16:00).")
    else Except.ok e

/-- `get_time_intervals` of `src/getData/intraday.py` (line 233), with
times in minutes since midnight and `interval_length` in minutes (the
pipeline calls it with `30, "min"`).  Note the custom-bounds branch of
the source hardcodes a 30-minute frequency. -/
def get_time_intervals (interval_length : ℕ) (starting_time ending_time : Option ℕ) :
    Except String (List ℕ) :=
  let intervals := date_range 570 960 interval_length
  match check_start intervals starting_time with
  | .error e => .error e
  | .ok s =>
    match check_end intervals ending_time with
    | .error e => .error e
    | .ok en =>
      if en ≤ s then Except.error ("ending_time must be later than starting_time.")
      else if ¬ s = 570 ∨ ¬ en = 960 then Except.ok (date_range s en 30)
      else Except.ok intervals

/-- The 30-minute working intervals used by `get_data` (line 394):
`zip(intervals[:-1], intervals[1:])`. -/
def intervals_pairs (bs : List ℕ) : List (ℕ × ℕ) :=
  bs.dropLast.zip bs.tail

/-- `file_write` of `src/getData/intraday.py` (line 131) at the level of
row contents: append to the existing rows when the file exists and is
non-empty, otherwise (re)create it holding exactly the new rows.  A
missing file and an empty file behave identically. -/
def file_write {α : Type} (file : List α) (df : List α) : List α :=
  if file.isEmpty then df else file ++ df

/-- One pass of the `get_data` inner loop (lines 399-411) over one
partition file: the file is first truncated when the interval being
processed starts at 09:30 (= 570), then `file_write` appends the rows
fetched for this interval. -/
def partition_step {α : Type} (start_interval : ℕ) (file : List α) (df : List α) : List α :=
  file_write (if start_interval = 570 then [] else file) df

/-- The successive writes that a whole run of `get_data` performs on one
strike's partition file: one `partition_step` per 30-minute interval, in
order; `steps` pairs each interval's starting time with the rows fetched
during it, and `init` is whatever the file held when the run started. -/
def run_partition {α : Type} (init : List α) (steps : List (ℕ × List α)) : List α :=
  steps.foldl (fun file s => partition_step s.1 file s.2) init

/-- `file_merge` of `src/getData/intraday.py` (line 175, binary branch)
at the level of row contents: the partition directory is an ordered list
of (file name, rows) pairs; every `.parquet` partition is read and its
rows written to the single output, in order, with no completeness or
sentinel check of any kind. -/
def file_merge {ρ : Type} (partitions : List (String × List ρ)) : Except String (List ρ) :=
  Except.ok ((partitions.map (fun p => p.2)).flatten)

/-- `PRICE_TYPES` of `get_data` (line 356). -/
def PRICE_TYPES : List String := ["CallBid", "CallAsk", "PutBid", "PutAsk"]

/-- `typeDict` of `fetch_data` (line 86). -/
def typeDict (price_type : String) : Option (String × String) :=
  if price_type = "CallBid" then some ("C", "BID")
  else if price_type = "CallAsk" then some ("C", "ASK")
  else if price_type = "PutBid" then some ("P", "BID")
  else if price_type = "PutAsk" then some ("P", "ASK")
  else none

/-- `fetch_data` of `src/getData/intraday.py` (line 74).  A provider bar
is (timestamp, close price).  An unknown `price_type` raises
`SyntaxError`; when the provider returns no bars, `util.df` gives `None`,
the `TypeError` from subscripting it is caught, and `None` is returned
(modelled as `ok none`); otherwise the (date, close) rows are returned. -/
def fetch_data (price_type : String) (bars : List (ℕ × ℚ)) :
    Except String (Option (List (ℕ × ℚ))) :=
  match typeDict price_type with
  | none => Except.error ("price_type must be either: CallBid, CallAsk, PutBid, PutAsk")
  | some _ => if bars = [] then Except.ok none else Except.ok (some bars)

/-- One row of the wide dataframe of `get_data` (line 405): the four
price columns at one timestamp. -/
structure Row4 where
  callBid : ℚ
  callAsk : ℚ
  putBid : ℚ
  putAsk : ℚ
deriving DecidableEq

/-- Write value `v` into the column named `price_type` of a row. -/
def setPT (price_type : String) (v : ℚ) (r : Row4) : Row4 :=
  if price_type = "CallBid" then { r with callBid := v }
  else if price_type = "CallAsk" then { r with callAsk := v }
  else if price_type = "PutBid" then { r with putBid := v }
  else if price_type = "PutAsk" then { r with putAsk := v }
  else r

/-- Read the column named `price_type` of a row. -/
def getPT (price_type : String) (r : Row4) : ℚ :=
  if price_type = "CallBid" then r.callBid
  else if price_type = "CallAsk" then r.callAsk
  else if price_type = "PutBid" then r.putBid
  else if price_type = "PutAsk" then r.putAsk
  else 0

/-- `df.update(data)` of `get_data` (line 409) for one fetched column:
`None` updates nothing (pandas coerces it to an empty frame); otherwise
each dataframe row whose timestamp appears in the fetched data gets that
value written into the `price_type` column. -/
def df_update (price_type : String) (df : List (ℕ × Row4))
    (data : Option (List (ℕ × ℚ))) : List (ℕ × Row4) :=
  match data with
  | none => df
  | some rows =>
    df.map (fun x =>
      match rows.lookup x.1 with
      | none => x
      | some v => (x.1, setPT price_type v x.2))

/-- The scaffold dataframe of `get_data` (line 405): one all-zero row per
second of the interval. -/
def init_df (seconds : List ℕ) : List (ℕ × Row4) :=
  seconds.map (fun t => (t, ⟨0, 0, 0, 0⟩))

/-- The `for price_type in PRICE_TYPES` loop of `get_data` (line 407):
fetch each price type and fold the updates into the dataframe; a raised
exception aborts the loop. -/
def update_loop (bars : String → List (ℕ × ℚ)) :
    List String → List (ℕ × Row4) → Except String (List (ℕ × Row4))
  | [], df => Except.ok df
  | pt :: pts, df =>
    match fetch_data pt (bars pt) with
    | .error e => .error e
    | .ok data => update_loop bars pts (df_update pt df data)

/-- Processing of one (strike, interval) cell of the `get_data` loop
(lines 403-413): build the zero scaffold, fetch and fold in all four
price types, and log the FINISHED line.  Returns the dataframe handed to
`file_write` together with the log lines emitted. -/
def process_strike (bars : String → List (ℕ × ℚ)) (seconds : List ℕ) (strike : ℤ) :
    Except String (List (ℕ × Row4) × List String) :=
  match update_loop bars PRICE_TYPES (init_df seconds) with
  | .error e => .error e
  | .ok df => Except.ok (df, ["FINISHED: " ++ toString strike])

/-- Projection of one named column of the wide dataframe. -/
def col (price_type : String) (df : List (ℕ × Row4)) : List (ℕ × ℚ) :=
  df.map (fun x => (x.1, getPT price_type x.2))

/-- Externally observable side effects of `get_data`
(`src/getData/intraday.py`, line 338): file-system and network events,
in program order. -/
inductive Event
  | fileCreate (name : String)
  | fileAppend (name : String)
  | dirCreate (name : String)
  | netConnect
  | netRequest (what : String)
deriving DecidableEq

/-- Partition file name for one strike (`get_data` line 397). -/
def partName (strike : ℤ) : String := toString strike ++ ".parquet"

/-- Events of the triple fetch loop of `get_data` (lines 394-418), given
the interval pairs and the strike groups: per strike, the 09:30 truncate,
the four quote requests, the partition write, the FINISHED log line and
the conditional NEXT log line. -/
def loop_events (pairs : List (ℕ × ℕ)) (groups : List (List ℤ)) : List Event :=
  pairs.flatMap (fun iv =>
    groups.flatMap (fun g =>
      g.flatMap (fun strike =>
        (if iv.1 = 570 then [Event.fileCreate (partName strike)] else []) ++
        PRICE_TYPES.map (fun _ => Event.netRequest ("quotes")) ++
        [Event.fileAppend (partName strike), Event.fileAppend ("log.txt")] ++
        (if ¬ strike = g.getLastD 0 ∧ ¬ g = groups.getLastD [] ∧ ¬ iv.2 = (pairs.getLastD (0, 0)).2
         then [Event.fileAppend ("log.txt")] else []))))

/-- Arguments and ambient provider responses of one `get_data` run.
`connect_ok` is whether the TWS connection attempt succeeds, and
`open_price` the opening price the provider reports (the run where the
opening-price request itself fails raises a plain `Exception` and is
outside the claims considered here). -/
structure GetDataArgs where
  connect_ok : Bool
  starting_time : Option ℕ
  ending_time : Option ℕ
  open_price : ℚ
  number_of_strikes : ℤ
  starting_strike : Option ℤ
  ending_strike : Option ℤ

/-- The side-effect trace of `get_data` (line 338) together with its
outcome, following the source order: create the log file, connect,
`get_time_intervals`, request the opening price (logging it and the
opening strike), `get_strike_range` (logging the range), create the `dl`
directory, run the fetch loop, and merge (which creates the output file).
A raised validation error stops the run at the corresponding point. -/
def get_data_events (a : GetDataArgs) : List Event × Except String Unit :=
  let ev0 : List Event := [Event.fileCreate ("log.txt")]
  if a.connect_ok = false then
    (ev0 ++ [Event.fileAppend ("log.txt")], Except.error ("You are not connected to TWS API."))
  else
    let ev1 := ev0 ++ [Event.netConnect]
    match get_time_intervals 30 a.starting_time a.ending_time with
    | .error e => (ev1, .error e)
    | .ok intervals =>
      let ev2 := ev1 ++ [Event.netRequest ("open_price"), Event.fileAppend ("log.txt"),
        Event.fileAppend ("log.txt")]
      match get_strike_range a.number_of_strikes (round_to_multiple a.open_price 5)
          a.starting_strike a.ending_strike with
      | .error e => (ev2, .error e)
      | .ok strikes =>
        let groups := create_sublist strikes 15
        let ev3 := ev2 ++ [Event.fileAppend ("log.txt"), Event.dirCreate ("dl")]
        (ev3 ++ loop_events (intervals_pairs intervals) groups ++
          [Event.fileAppend ("log.txt"), Event.fileCreate ("output"),
           Event.fileAppend ("log.txt")], Except.ok ())

end GetData

namespace Intraday

/-- Little-endian byte encoding of a 32-bit word (`m < 2^32`). -/
def encode_u32 (m : ℕ) : List ℕ :=
  [m % 256, m / 256 % 256, m / 65536 % 256, m / 16777216 % 256]

/-- Recombine four little-endian bytes into a 32-bit word
(`struct.unpack` reading 4 bytes as unsigned). -/
def decode_u32 (bs : List ℕ) : ℕ :=
  bs.getD 0 0 + 256 * bs.getD 1 0 + 65536 * bs.getD 2 0 + 16777216 * bs.getD 3 0

/-- `struct.pack` of one signed 32-bit `i` field: raises when the value
does not fit, else its two's-complement little-endian bytes. -/
def pack_i32 (n : ℤ) : Except String (List ℕ) :=
  if -2147483648 ≤ n ∧ n < 2147483648 then
    Except.ok (encode_u32 ((n % 4294967296).toNat))
  else Except.error ("argument out of range")

/-- `struct.unpack` of one signed 32-bit `i` field from 4 bytes. -/
def unpack_i32 (bs : List ℕ) : ℤ :=
  let m := decode_u32 bs
  if m < 2147483648 then (m : ℤ) else (m : ℤ) - 4294967296

/-- `struct.pack` of one `f` field.  The binary32 value is modelled by
its bit pattern (a word below `2^32`); the rounding real → binary32
happens before `file_write` and is outside the model. -/
def pack_f32 (bits : ℕ) : Except String (List ℕ) :=
  if bits < 4294967296 then Except.ok (encode_u32 bits)
  else Except.error ("argument out of range")

/-- `struct.pack('iiifi', a, b, c, f, e)`: the 20 bytes of one record of
the fixed binary format, fields in order, no padding. -/
def pack_iiifi (a b c : ℤ) (fbits : ℕ) (e : ℤ) : Except String (List ℕ) :=
  match pack_i32 a, pack_i32 b, pack_i32 c, pack_f32 fbits, pack_i32 e with
  | .ok x1, .ok x2, .ok x3, .ok x4, .ok x5 => Except.ok (x1 ++ x2 ++ x3 ++ x4 ++ x5)
  | _, _, _, _, _ => Except.error ("argument out of range")

/-- The `cp` dictionary of `file_write` in `src/intraday.py` (line 102):
`{"C": 0, "P": 1}`; any other key raises `KeyError`. -/
def cp (right : String) : Except String ℤ :=
  if right = "C" then Except.ok 0
  else if right = "P" then Except.ok 1
  else Except.error ("KeyError")

/-- `file_write` of `src/intraday.py` (line 86), binary branch: append
two packed records to the file, the bid row with side `ba['B'] = 0`
followed by the ask row with side `ba['A'] = 1`.  Prices are binary32
bit patterns (see `pack_f32`). -/
def file_write (file : List ℕ) (time strike : ℤ) (right : String)
    (bidBits askBits : ℕ) : Except String (List ℕ) :=
  match cp right with
  | .error e => .error e
  | .ok c =>
    match pack_iiifi time c 0 bidBits strike, pack_iiifi time c 1 askBits strike with
    | .ok r1, .ok r2 => Except.ok (file ++ r1 ++ r2)
    | .error e, _ => .error e
    | _, .error e => .error e

/-- `read_data_from_binary` of `src/getData/read.py` (line 10): read the
byte stream one 20-byte struct at a time, unpacking each chunk
`iiifi` as `(timestamp, right, side, price-bits, strike)` from its five
4-byte fields; a trailing chunk shorter than 20 bytes makes
`struct.unpack` raise. -/
def read_data_from_binary : List ℕ → Except String (List (ℤ × ℤ × ℤ × ℕ × ℤ))
  | [] => Except.ok []
  | x0 :: x1 :: x2 :: x3 :: x4 :: x5 :: x6 :: x7 :: x8 :: x9 ::
      x10 :: x11 :: x12 :: x13 :: x14 :: x15 :: x16 :: x17 :: x18 :: x19 :: rest =>
    match read_data_from_binary rest with
    | .error e => .error e
    | .ok out =>
      Except.ok ((unpack_i32 [x0, x1, x2, x3], unpack_i32 [x4, x5, x6, x7],
        unpack_i32 [x8, x9, x10, x11], decode_u32 [x12, x13, x14, x15],
        unpack_i32 [x16, x17, x18, x19]) :: out)
  | _ => Except.error ("unpack requires a buffer of 20 bytes")

end Intraday

namespace GetData

/-- The validation-error condition that C9 asserts for
`get_time_intervals` with 30-minute intervals, written from the claim's
words: an explicit starting time off the boundary grid
(multiples of 30 minutes within [09:30, 16:00]) or equal to 16:00; an
explicit ending time off the grid or equal to 09:30; or an effective
ending time not later than the effective starting time. -/
def timeBoundsInvalid (st0 en0 : Option ℕ) : Prop :=
  (∃ s, st0 = some s ∧ (¬ (570 ≤ s ∧ s ≤ 960 ∧ 30 ∣ s) ∨ s = 960)) ∨
  (∃ e, en0 = some e ∧ (¬ (570 ≤ e ∧ e ≤ 960 ∧ 30 ∣ e) ∨ e = 570)) ∨
  en0.getD 960 ≤ st0.getD 570

end GetData

/-! ## Proofs -/

namespace GetData

lemma create_sublist_nil {α : Type} (n : ℕ) (hn : 0 < n) :
    create_sublist ([] : List α) n = [] := by
  simp [create_sublist, pyRange0]
  exact Nat.div_eq_of_lt (by omega)

lemma count_step (L n : ℕ) (hn : 0 < n) (hL : 0 < L) :
    (L + n - 1) / n = ((L - n) + n - 1) / n + 1 := by
  rcases Nat.le_total n L with h | h
  · have e1 : L + n - 1 = (L - 1) + n := by omega
    have e2 : (L - n) + n - 1 = L - 1 := by omega
    rw [e1, e2, Nat.add_div_right _ hn]
  · have e1 : L + n - 1 = (L - 1) + n := by omega
    have e2 : (L - n) + n - 1 = n - 1 := by omega
    rw [e1, e2, Nat.add_div_right _ hn, Nat.div_eq_of_lt (by omega), Nat.div_eq_of_lt (by omega)]

lemma create_sublist_cons {α : Type} (l : List α) (n : ℕ) (hn : 0 < n) (hl : l ≠ []) :
    create_sublist l n = l.take n :: create_sublist (l.drop n) n := by
  have hL : 0 < l.length := List.length_pos.mpr hl
  have hcount := count_step l.length n hn hL
  simp only [create_sublist, pyRange0, List.map_map, List.length_drop]
  rw [hcount, List.range_succ_eq_map]
  simp only [List.map_cons, List.map_map, Function.comp_def, Function.comp_apply]
  congr 1
  · simp
  · refine List.map_congr_left (fun i _ => ?_)
    have hm : Nat.succ i * n = n + i * n := by rw [Nat.succ_mul, Nat.add_comm]
    rw [hm, List.drop_drop]

lemma create_sublist_length {α : Type} (l : List α) (n : ℕ) :
    (create_sublist l n).length = (l.length + n - 1) / n := by
  simp [create_sublist, pyRange0]

lemma create_sublist_flatten {α : Type} (l : List α) (n : ℕ) (hn : 0 < n) :
    (create_sublist l n).flatten = l := by
  by_cases hl : l = []
  · subst hl; simp [create_sublist_nil n hn]
  · rw [create_sublist_cons l n hn hl]
    simp only [List.flatten_cons]
    rw [create_sublist_flatten (l.drop n) n hn, List.take_append_drop]
termination_by l.length
decreasing_by
  have : 0 < l.length := List.length_pos.mpr hl
  simp only [List.length_drop]
  omega

lemma create_sublist_ne_nil {α : Type} (l : List α) (n : ℕ) (hn : 0 < n) (hl : l ≠ []) :
    create_sublist l n ≠ [] := by
  rw [create_sublist_cons l n hn hl]
  simp

lemma create_sublist_dropLast {α : Type} (l : List α) (n : ℕ) (hn : 0 < n) :
    ∀ g ∈ (create_sublist l n).dropLast, g.length = n := by
  by_cases hl : l = []
  · subst hl; simp [create_sublist_nil n hn]
  · rw [create_sublist_cons l n hn hl]
    by_cases hd : l.drop n = []
    · rw [hd, create_sublist_nil n hn]
      simp
    · have hlen : n < l.length := by
        have h1 : 0 < (l.drop n).length := List.length_pos.mpr hd
        simp only [List.length_drop] at h1
        omega
      obtain ⟨g0, gs, hgs⟩ : ∃ g0 gs, create_sublist (l.drop n) n = g0 :: gs := by
        rcases h : create_sublist (l.drop n) n with _ | ⟨g0, gs⟩
        · exact absurd h (create_sublist_ne_nil (l.drop n) n hn hd)
        · exact ⟨g0, gs, rfl⟩
      rw [hgs, List.dropLast_cons₂]
      intro g hg
      rcases List.mem_cons.mp hg with rfl | hg2
      · simp only [List.length_take]
        omega
      · have IH := create_sublist_dropLast (l.drop n) n hn
        rw [hgs] at IH
        exact IH g hg2
termination_by l.length
decreasing_by
  have : 0 < l.length := List.length_pos.mpr hl
  simp only [List.length_drop]
  omega

lemma create_sublist_le {α : Type} (l : List α) (n : ℕ) :
    ∀ g ∈ create_sublist l n, g.length ≤ n := by
  simp only [create_sublist, pyRange0, List.map_map, List.mem_map, Function.comp_apply]
  rintro g ⟨i, _, rfl⟩
  simp [List.length_take]

/-- C1.  `create_sublist(list, B)` with `B > 0` over a list of `S`
strikes returns `ceil(S/B)` groups (characterised both as
`(S + B - 1) / B` and by `S ≤ B·k < S + B`), whose concatenation is the
input list (every strike exactly once, in order); every group except
possibly the last has exactly `B` elements and every group has at most
`B` elements. -/
theorem create_sublist_batches_spec {α : Type} (l : List α) (n : ℕ) (hn : 0 < n) :
    (create_sublist l n).length = (l.length + n - 1) / n ∧
    (l.length ≤ n * (create_sublist l n).length ∧
      n * (create_sublist l n).length < l.length + n) ∧
    (create_sublist l n).flatten = l ∧
    (∀ g ∈ (create_sublist l n).dropLast, g.length = n) ∧
    (∀ g ∈ create_sublist l n, g.length ≤ n) := by
  refine ⟨create_sublist_length l n, ?_, create_sublist_flatten l n hn,
    create_sublist_dropLast l n hn, create_sublist_le l n⟩
  rw [create_sublist_length l n]
  have hdm := Nat.div_add_mod (l.length + n - 1) n
  have hmlt : (l.length + n - 1) % n < n := Nat.mod_lt _ hn
  omega

/-- Witness for C1 at a concrete input: 7 strikes in batches of 3. -/
theorem create_sublist_batches_spec_witness :
    (create_sublist [(1 : ℤ), 2, 3, 4, 5, 6, 7] 3).length = (7 + 3 - 1) / 3 ∧
    (7 ≤ 3 * (create_sublist [(1 : ℤ), 2, 3, 4, 5, 6, 7] 3).length ∧
      3 * (create_sublist [(1 : ℤ), 2, 3, 4, 5, 6, 7] 3).length < 7 + 3) ∧
    (create_sublist [(1 : ℤ), 2, 3, 4, 5, 6, 7] 3).flatten = [1, 2, 3, 4, 5, 6, 7] ∧
    (∀ g ∈ (create_sublist [(1 : ℤ), 2, 3, 4, 5, 6, 7] 3).dropLast, g.length = 3) ∧
    (∀ g ∈ create_sublist [(1 : ℤ), 2, 3, 4, 5, 6, 7] 3, g.length ≤ 3) := by
  have h := create_sublist_batches_spec [(1 : ℤ), 2, 3, 4, 5, 6, 7] 3 (by norm_num)
  simpa using h

end GetData

namespace GetData

lemma roundHalfEven_dist (q : ℚ) : |(roundHalfEven q : ℚ) - q| ≤ 1 / 2 := by
  have h0 : 0 ≤ Int.fract q := Int.fract_nonneg q
  have h1 : Int.fract q < 1 := Int.fract_lt_one q
  have hf : (⌊q⌋ : ℚ) = q - Int.fract q := by
    unfold Int.fract
    ring
  unfold roundHalfEven
  split_ifs with hlt hgt heven <;>
    (rw [abs_le]
     push_cast
     rw [hf]
     constructor <;> linarith)

lemma roundHalfEven_half : roundHalfEven ((1 : ℚ) / 2) = 0 := by
  have hfl : ⌊(1 : ℚ) / 2⌋ = 0 := by
    rw [Int.floor_eq_iff]
    norm_num
  have hfr : Int.fract ((1 : ℚ) / 2) = 1 / 2 := by
    unfold Int.fract
    rw [hfl]
    norm_num
  unfold roundHalfEven
  rw [hfr, hfl]
  norm_num

/-- C2.  `round_to_multiple(x, 5)` returns a multiple of 5 at distance at
most 2.5 from `x`, and the rounding rule is the deterministic
round-half-to-even of Python's `round` (witnessed at the tie `x = 2.5`,
which goes to the even multiple 0, not 5). -/
theorem round_to_multiple_spec (x : ℚ) :
    round_to_multiple x 5 % 5 = 0 ∧
    |((round_to_multiple x 5 : ℤ) : ℚ) - x| ≤ 5 / 2 ∧
    round_to_multiple (5 / 2) 5 = 0 := by
  refine ⟨Int.mul_emod_right 5 _, ?_, ?_⟩
  · have h := roundHalfEven_dist (x / 5)
    have hx : ((round_to_multiple x 5 : ℤ) : ℚ) - x =
        5 * ((roundHalfEven (x / 5) : ℚ) - x / 5) := by
      unfold round_to_multiple
      push_cast
      ring
    rw [hx, abs_mul, abs_of_nonneg (show (0 : ℚ) ≤ 5 by norm_num)]
    linarith
  · unfold round_to_multiple
    rw [show ((5 : ℚ) / 2) / ((5 : ℤ) : ℚ) = 1 / 2 by norm_num, roundHalfEven_half, mul_zero]

end GetData

namespace GetData

lemma file_write_eq_append {α : Type} (file df : List α) : file_write file df = file ++ df := by
  unfold file_write
  rcases file with _ | ⟨a, t⟩ <;> simp

lemma run_partition_no_truncate {α : Type} (steps : List (ℕ × List α)) :
    ∀ init : List α, (∀ s ∈ steps, ¬ s.1 = 570) →
      run_partition init steps = init ++ (steps.map Prod.snd).flatten := by
  induction steps with
  | nil =>
    intro init _
    simp [run_partition]
  | cons s ss ih =>
    intro init h
    have hs : ¬ s.1 = 570 := h s (List.mem_cons_self s ss)
    have hstep : partition_step s.1 init s.2 = init ++ s.2 := by
      unfold partition_step
      rw [if_neg hs, file_write_eq_append]
    have ih2 := ih (init ++ s.2) (fun q hq => h q (List.mem_cons_of_mem s hq))
    unfold run_partition at ih2 ⊢
    simp only [List.foldl_cons]
    rw [hstep, ih2]
    simp

/-- C3 counterexample.  A run started at 10:00 (non-default
`starting_time`: no processed interval starts at 09:30) over a partition
file that still holds a row `0` from some earlier run: the run's first
write appends instead of truncating, leaving `[0, 1]` and not `[1]` as
the claim requires. -/
theorem run_partition_nondefault_counterexample :
    run_partition [(0 : ℤ)] [(600, [1])] = [0, 1] ∧
    run_partition [(0 : ℤ)] [(600, [1])] ≠ [1] := by
  constructor <;> decide

/-- C3 amended.  The truncation of a partition file happens exactly for
the interval that starts at 09:30 (= 570), not at the first write of the
run: a default run (first interval 09:30, all later intervals different)
recreates the file and then appends each interval's rows after the
previously written ones, discarding any prior content; a run with a
non-default `starting_time` never truncates, its first write appending
after whatever the file already held. -/
theorem run_partition_truncate_amended {α : Type} (init df0 : List α)
    (rest : List (ℕ × List α)) (h : ∀ s ∈ rest, ¬ s.1 = 570) :
    run_partition init ((570, df0) :: rest) = df0 ++ (rest.map Prod.snd).flatten ∧
    run_partition init rest = init ++ (rest.map Prod.snd).flatten := by
  refine ⟨?_, run_partition_no_truncate rest init h⟩
  have h2 := run_partition_no_truncate rest df0 h
  unfold run_partition at h2 ⊢
  simp only [List.foldl_cons]
  rw [show partition_step 570 init df0 = df0 from rfl]
  exact h2

/-- Witness for the amended C3 at a concrete input. -/
theorem run_partition_truncate_amended_witness :
    run_partition [(7 : ℤ)] [(570, [1]), (600, [2])] = [1, 2] ∧
    run_partition [(7 : ℤ)] [(600, [2])] = [7, 2] := by
  have h := run_partition_truncate_amended [(7 : ℤ)] [1] [(600, [2])] (by decide)
  simpa using h

lemma getPT_setPT (pt p : String) (h : ¬ p = pt) (v : ℚ) (r : Row4) :
    getPT pt (setPT p v r) = getPT pt r := by
  unfold getPT setPT
  split_ifs <;> simp_all

lemma col_df_update_ne (pt p : String) (h : ¬ p = pt) (df : List (ℕ × Row4))
    (data : Option (List (ℕ × ℚ))) :
    col pt (df_update p df data) = col pt df := by
  rcases data with _ | rows
  · rfl
  · unfold df_update col
    rw [List.map_map]
    refine List.map_congr_left (fun x _ => ?_)
    simp only [Function.comp_apply]
    rcases hlk : rows.lookup x.1 with _ | v
    · rfl
    · simp [getPT_setPT pt p h]

lemma update_loop_spec (bars : String → List (ℕ × ℚ)) (pt : String) (hempty : bars pt = []) :
    ∀ (pts : List String) (df : List (ℕ × Row4)),
      (∀ p ∈ pts, (typeDict p).isSome = true) →
      ∃ df2, update_loop bars pts df = Except.ok df2 ∧ col pt df2 = col pt df := by
  intro pts
  induction pts with
  | nil =>
    intro df _
    exact ⟨df, rfl, rfl⟩
  | cons p pts ih =>
    intro df hval
    have hp : (typeDict p).isSome = true := hval p (List.mem_cons_self p pts)
    obtain ⟨data, hd, hdn⟩ :
        ∃ data, fetch_data p (bars p) = Except.ok data ∧ (p = pt → data = none) := by
      rcases htd : typeDict p with _ | v
      · rw [htd] at hp
        simp at hp
      · by_cases hb : bars p = []
        · exact ⟨none, by simp [fetch_data, htd, hb], fun _ => rfl⟩
        · refine ⟨some (bars p), by simp [fetch_data, htd, hb], fun hpe => ?_⟩
          subst hpe
          exact absurd hempty hb
    have hcol : col pt (df_update p df data) = col pt df := by
      by_cases hpe : p = pt
      · rw [hdn hpe]
        rfl
      · exact col_df_update_ne pt p hpe df data
    obtain ⟨df2, h1, h2⟩ := ih (df_update p df data)
      (fun q hq => hval q (List.mem_cons_of_mem p hq))
    refine ⟨df2, ?_, by rw [h2, hcol]⟩
    simp only [update_loop, hd]
    exact h1

/-- C4.  A WorkUnit (one price type of one strike and interval) for which
the provider returns no bars contributes zero rows: `process_strike`
succeeds (no exception; the batch and the run continue), the unit's
column of the written dataframe is exactly the untouched all-zero
scaffold column, and the FINISHED log line for the strike is still
emitted. -/
theorem zero_bars_unit_spec (bars : String → List (ℕ × ℚ)) (seconds : List ℕ) (strike : ℤ)
    (pt : String) (_hpt : pt ∈ PRICE_TYPES) (hempty : bars pt = []) :
    ∃ df logs, process_strike bars seconds strike = Except.ok (df, logs) ∧
      col pt df = col pt (init_df seconds) ∧
      ("FINISHED: " ++ toString strike) ∈ logs := by
  have hval : ∀ p ∈ PRICE_TYPES, (typeDict p).isSome = true := by
    intro p hp
    simp only [PRICE_TYPES, List.mem_cons, List.not_mem_nil, or_false] at hp
    rcases hp with rfl | rfl | rfl | rfl <;> rfl
  obtain ⟨df2, h1, h2⟩ := update_loop_spec bars pt hempty PRICE_TYPES (init_df seconds) hval
  refine ⟨df2, ["FINISHED: " ++ toString strike], ?_, h2, List.mem_singleton.mpr rfl⟩
  unfold process_strike
  rw [h1]

/-- Witness for C4 at a concrete input: every fetch empty, one second,
strike 5400, unit CallBid. -/
theorem zero_bars_unit_spec_witness :
    ∃ df logs,
      process_strike (fun _ => []) [0] 5400 = Except.ok (df, logs) ∧
      col ("CallBid") df = col ("CallBid") (init_df [0]) ∧
      ("FINISHED: " ++ toString (5400 : ℤ)) ∈ logs :=
  zero_bars_unit_spec (fun _ => []) [0] 5400 ("CallBid") (by decide) rfl

end GetData

namespace GetData

/-- C5 counterexample.  The pipeline writes no end-of-file sentinel of
any kind, so no partition ever carries one; in particular in this merge
of two partitions, partition "5405" (standing for one interrupted
mid-run) lacks a sentinel, yet `file_merge` does not fail and does not
report its key: it succeeds and concatenates every partition's rows,
including those of "5405". -/
theorem file_merge_missing_sentinel_counterexample :
    file_merge [("5400", [(10 : ℤ), 20]), ("5405", [30])] = Except.ok [10, 20, 30] := by
  rfl

/-- C5 amended.  `file_merge` performs no completeness check: it never
fails, concatenates the rows of every partition file in directory order
(row count is the sum of the partition row counts, and each partition's
rows stay contiguous and in their internal order); there is no
end-of-file sentinel mechanism, so an incomplete partition is merged
like any other and no partition key is ever reported. -/
theorem file_merge_concats_all {ρ : Type} (partitions : List (String × List ρ)) :
    ∃ rows, file_merge partitions = Except.ok rows ∧
      rows.length = (partitions.map (fun p => p.2.length)).sum ∧
      ∀ p ∈ partitions, p.2 <:+: rows := by
  refine ⟨(partitions.map (fun p => p.2)).flatten, ?_, ?_, ?_⟩
  · rfl
  · rw [List.length_flatten, List.map_map]
    rfl
  · intro p hp
    exact List.infix_of_mem_flatten (List.mem_map_of_mem (fun p => p.2) hp)

/-- C7.  With the default session bounds and a 30-minute interval length,
`get_time_intervals` returns the 14 boundaries 09:30, 10:00, ..., 16:00,
and the planner's `zip(intervals[:-1], intervals[1:])` working intervals
are exactly 13 consecutive, non-overlapping intervals: the first starts
at 09:30 (570), the last ends exactly at 16:00 (960), and each
interval's start equals the previous interval's end. -/
theorem default_session_thirteen_intervals :
    get_time_intervals 30 none none =
      Except.ok [570, 600, 630, 660, 690, 720, 750, 780, 810, 840, 870, 900, 930, 960] ∧
    (intervals_pairs [570, 600, 630, 660, 690, 720, 750, 780, 810, 840, 870, 900, 930, 960]).length = 13 ∧
    (intervals_pairs [570, 600, 630, 660, 690, 720, 750, 780, 810, 840, 870, 900, 930, 960]).headD (0, 0) = (570, 600) ∧
    (intervals_pairs [570, 600, 630, 660, 690, 720, 750, 780, 810, 840, 870, 900, 930, 960]).getLastD (0, 0) = (930, 960) ∧
    List.Chain' (fun p q => p.2 = q.1)
      (intervals_pairs [570, 600, 630, 660, 690, 720, 750, 780, 810, 840, 870, 900, 930, 960]) := by
  refine ⟨rfl, rfl, rfl, rfl, ?_⟩
  show List.Chain' (fun p q => p.2 = q.1)
    [(570, 600), (600, 630), (630, 660), (660, 690), (690, 720), (720, 750), (750, 780),
     (780, 810), (810, 840), (840, 870), (870, 900), (900, 930), (930, 960)]
  simp [List.chain'_cons]

lemma roundHalfEven_intCast (z : ℤ) : roundHalfEven (z : ℚ) = z := by
  unfold roundHalfEven
  rw [Int.fract_intCast, Int.floor_intCast, if_pos (by norm_num : (0 : ℚ) < 1 / 2)]

lemma round_to_multiple_mul5 (k : ℤ) : round_to_multiple ((5 * k : ℤ) : ℚ) 5 = 5 * k := by
  unfold round_to_multiple
  rw [show ((5 * k : ℤ) : ℚ) = (5 : ℚ) * (k : ℚ) by push_cast; ring,
    show ((5 : ℤ) : ℚ) = (5 : ℚ) by norm_num,
    mul_div_cancel_left₀ (k : ℚ) (by norm_num : (5 : ℚ) ≠ 0), roundHalfEven_intCast]

lemma get_strike_range_5400_5450 :
    get_strike_range 30 5000 (some 5400) (some 5450) =
      Except.ok [5400, 5405, 5410, 5415, 5420, 5425, 5430, 5435, 5440, 5445] := by
  have h1 : round_to_multiple ((5400 : ℤ) : ℚ) 5 = 5400 := by
    have h := round_to_multiple_mul5 1080
    norm_num at h
    exact h
  have h2 : round_to_multiple ((5450 : ℤ) : ℚ) 5 = 5450 := by
    have h := round_to_multiple_mul5 1090
    norm_num at h
    exact h
  unfold get_strike_range
  simp only [h1, h2]
  rw [if_neg (by norm_num)]
  rfl

/-- C8 counterexample.  With explicit strike bounds 5400 and 5450 the
planner's universe is `range(5400, 5450, 5)`, which excludes the upper
bound: 10 strikes 5400..5445, not the 11 strikes 5400..5450 of the
claim, and 5450 is not in the universe. -/
theorem strike_bounds_counterexample :
    get_strike_range 30 5000 (some 5400) (some 5450) =
      Except.ok [5400, 5405, 5410, 5415, 5420, 5425, 5430, 5435, 5440, 5445] ∧
    (5450 : ℤ) ∉ [(5400 : ℤ), 5405, 5410, 5415, 5420, 5425, 5430, 5435, 5440, 5445] := by
  exact ⟨get_strike_range_5400_5450, by decide⟩

/-- C8 amended.  For explicit strike bounds 5400 and 5450 (increment 5)
the strike universe is the 10 strikes `[5400, 5405, ..., 5445]` —
inclusive of the lower bound, exclusive of the upper — and grouping it
with batch size 5 yields exactly 2 groups of sizes 5 and 5. -/
theorem strike_bounds_amended :
    get_strike_range 30 5000 (some 5400) (some 5450) =
      Except.ok [5400, 5405, 5410, 5415, 5420, 5425, 5430, 5435, 5440, 5445] ∧
    create_sublist [(5400 : ℤ), 5405, 5410, 5415, 5420, 5425, 5430, 5435, 5440, 5445] 5 =
      [[5400, 5405, 5410, 5415, 5420], [5425, 5430, 5435, 5440, 5445]] ∧
    (create_sublist [(5400 : ℤ), 5405, 5410, 5415, 5420, 5425, 5430, 5435, 5440, 5445] 5).map
        List.length = [5, 5] := by
  refine ⟨get_strike_range_5400_5450, ?_, ?_⟩ <;> decide

end GetData

namespace GetData

lemma mem_date_range_30 (s : ℕ) :
    s ∈ date_range 570 960 30 ↔ (570 ≤ s ∧ s ≤ 960 ∧ 30 ∣ s) := by
  unfold date_range
  rw [if_neg (by norm_num)]
  simp only [List.mem_map, List.mem_range]
  constructor
  · rintro ⟨i, hi, rfl⟩
    exact ⟨by omega, by omega, 19 + i, by ring⟩
  · rintro ⟨h1, h2, k, rfl⟩
    exact ⟨k - 19, by omega, by omega⟩

lemma check_start_none (I : List ℕ) : check_start I none = Except.ok 570 := rfl

lemma check_end_none (I : List ℕ) : check_end I none = Except.ok 960 := rfl

lemma check_start_some_ok (s : ℕ) (hb : 570 ≤ s ∧ s ≤ 960 ∧ 30 ∣ s) (h960 : ¬ s = 960) :
    check_start (date_range 570 960 30) (some s) = Except.ok s := by
  have hlast : (date_range 570 960 30).getLastD 0 = 960 := by decide
  simp only [check_start]
  rw [hlast, if_neg]
  push_neg
  exact ⟨(mem_date_range_30 s).mpr hb, h960⟩

lemma check_start_some_err (s : ℕ) (h : ¬ (570 ≤ s ∧ s ≤ 960 ∧ 30 ∣ s) ∨ s = 960) :
    check_start (date_range 570 960 30) (some s) =
      Except.error ("starting_time must be every 30 mins of the trading day (i.e. 9:30, 10:00, 10:30 ... 15:30).") := by
  have hlast : (date_range 570 960 30).getLastD 0 = 960 := by decide
  simp only [check_start]
  rw [hlast, if_pos]
  rcases h with h | h
  · exact Or.inl (fun hm => h ((mem_date_range_30 s).mp hm))
  · exact Or.inr h

lemma check_end_some_ok (e : ℕ) (hb : 570 ≤ e ∧ e ≤ 960 ∧ 30 ∣ e) (h570 : ¬ e = 570) :
    check_end (date_range 570 960 30) (some e) = Except.ok e := by
  have hhead : (date_range 570 960 30).headD 0 = 570 := by decide
  simp only [check_end]
  rw [hhead, if_neg]
  push_neg
  exact ⟨(mem_date_range_30 e).mpr hb, h570⟩

lemma check_end_some_err (e : ℕ) (h : ¬ (570 ≤ e ∧ e ≤ 960 ∧ 30 ∣ e) ∨ e = 570) :
    check_end (date_range 570 960 30) (some e) =
      Except.error ("ending_time must be every 30 mins of the trading day (i.e. 10:00, 10:30 ... 15:30, 16:00).") := by
  have hhead : (date_range 570 960 30).headD 0 = 570 := by decide
  simp only [check_end]
  rw [hhead, if_pos]
  rcases h with h | h
  · exact Or.inl (fun hm => h ((mem_date_range_30 e).mp hm))
  · exact Or.inr h

/-- C9.  With 30-minute intervals, `get_time_intervals` raises a
validation error (`SyntaxError`) if and only if an explicit
`starting_time` is off the 30-minute boundary grid of the session or is
16:00, an explicit `ending_time` is off the grid or is 09:30, or the
effective ending time is not later than the effective starting time;
for all other inputs it returns the boundary sequence from the effective
start to the effective end without error. -/
theorem get_time_intervals_error_iff (st0 en0 : Option ℕ) :
    (isErrorE (get_time_intervals 30 st0 en0) = true ↔ timeBoundsInvalid st0 en0) ∧
    (¬ timeBoundsInvalid st0 en0 →
      get_time_intervals 30 st0 en0 =
        Except.ok (date_range (st0.getD 570) (en0.getD 960) 30)) := by
  rcases st0 with _ | s
  · rcases en0 with _ | e
    · have hg : get_time_intervals 30 none none = Except.ok (date_range 570 960 30) := rfl
      have hti : ¬ timeBoundsInvalid none none := by
        rintro (⟨s, hs, _⟩ | ⟨e, he, _⟩ | hle)
        · cases hs
        · cases he
        · simp at hle
      refine ⟨?_, fun _ => hg⟩
      rw [hg]
      constructor
      · intro h
        simp [isErrorE] at h
      · intro h
        exact absurd h hti
    · by_cases he : ¬ (570 ≤ e ∧ e ≤ 960 ∧ 30 ∣ e) ∨ e = 570
      · have hg : isErrorE (get_time_intervals 30 none (some e)) = true := by
          simp only [get_time_intervals, check_start_none, check_end_some_err e he]
          rfl
        have hti : timeBoundsInvalid none (some e) := Or.inr (Or.inl ⟨e, rfl, he⟩)
        refine ⟨⟨fun _ => hti, fun _ => hg⟩, fun hc => absurd hti hc⟩
      · push_neg at he
        obtain ⟨hb, h570⟩ := he
        have hgt : 570 < e := by
          rcases hb with ⟨h1, _, _⟩
          omega
        have hg : get_time_intervals 30 none (some e) =
            Except.ok (date_range 570 e 30) := by
          simp only [get_time_intervals, check_start_none, check_end_some_ok e hb h570]
          rw [if_neg (by omega : ¬ e ≤ 570)]
          by_cases h960 : e = 960
          · subst h960
            rw [if_neg (by simp)]
          · rw [if_pos (Or.inr h960)]
        have hti : ¬ timeBoundsInvalid none (some e) := by
          rintro (⟨s, hs, _⟩ | ⟨x, hx, hbad⟩ | hle)
          · cases hs
          · injection hx with hxe
            subst hxe
            rcases hbad with hbad | hbad
            · exact hbad hb
            · exact h570 hbad
          · simp only [Option.getD_some, Option.getD_none] at hle
            omega
        refine ⟨?_, fun _ => hg⟩
        rw [hg]
        constructor
        · intro h
          simp [isErrorE] at h
        · intro h
          exact absurd h hti
  · by_cases hs : ¬ (570 ≤ s ∧ s ≤ 960 ∧ 30 ∣ s) ∨ s = 960
    · have hg : isErrorE (get_time_intervals 30 (some s) en0) = true := by
        simp only [get_time_intervals, check_start_some_err s hs]
        rfl
      have hti : timeBoundsInvalid (some s) en0 := Or.inl ⟨s, rfl, hs⟩
      refine ⟨⟨fun _ => hti, fun _ => hg⟩, fun hc => absurd hti hc⟩
    · push_neg at hs
      obtain ⟨hb, h960⟩ := hs
      have hlt : s < 960 := by
        rcases hb with ⟨_, h2, _⟩
        omega
      rcases en0 with _ | e
      · have hg : get_time_intervals 30 (some s) none =
            Except.ok (date_range s 960 30) := by
          simp only [get_time_intervals, check_start_some_ok s hb h960, check_end_none]
          rw [if_neg (by omega : ¬ 960 ≤ s)]
          by_cases h570 : s = 570
          · subst h570
            rw [if_neg (by simp)]
          · rw [if_pos (Or.inl h570)]
        have hti : ¬ timeBoundsInvalid (some s) none := by
          rintro (⟨x, hx, hbad⟩ | ⟨e, hex, _⟩ | hle)
          · injection hx with hxs
            subst hxs
            rcases hbad with hbad | hbad
            · exact hbad hb
            · exact h960 hbad
          · cases hex
          · simp only [Option.getD_some, Option.getD_none] at hle
            omega
        refine ⟨?_, fun _ => hg⟩
        rw [hg]
        constructor
        · intro h
          simp [isErrorE] at h
        · intro h
          exact absurd h hti
      · by_cases hee : ¬ (570 ≤ e ∧ e ≤ 960 ∧ 30 ∣ e) ∨ e = 570
        · have hg : isErrorE (get_time_intervals 30 (some s) (some e)) = true := by
            simp only [get_time_intervals, check_start_some_ok s hb h960,
              check_end_some_err e hee]
            rfl
          have hti : timeBoundsInvalid (some s) (some e) := Or.inr (Or.inl ⟨e, rfl, hee⟩)
          refine ⟨⟨fun _ => hti, fun _ => hg⟩, fun hc => absurd hti hc⟩
        · push_neg at hee
          obtain ⟨hbe, h570⟩ := hee
          by_cases hle : e ≤ s
          · have hg : isErrorE (get_time_intervals 30 (some s) (some e)) = true := by
              simp only [get_time_intervals, check_start_some_ok s hb h960,
                check_end_some_ok e hbe h570]
              rw [if_pos hle]
              rfl
            have hti : timeBoundsInvalid (some s) (some e) := by
              refine Or.inr (Or.inr ?_)
              simpa using hle
            refine ⟨⟨fun _ => hti, fun _ => hg⟩, fun hc => absurd hti hc⟩
          · have hg : get_time_intervals 30 (some s) (some e) =
                Except.ok (date_range s e 30) := by
              simp only [get_time_intervals, check_start_some_ok s hb h960,
                check_end_some_ok e hbe h570]
              rw [if_neg hle]
              by_cases h5 : s = 570
              · by_cases h9 : e = 960
                · subst h5
                  subst h9
                  rw [if_neg (by simp)]
                · rw [if_pos (Or.inr h9)]
              · rw [if_pos (Or.inl h5)]
            have hti : ¬ timeBoundsInvalid (some s) (some e) := by
              rintro (⟨x, hx, hbad⟩ | ⟨x, hx, hbad⟩ | hl)
              · injection hx with hxs
                subst hxs
                rcases hbad with hbad | hbad
                · exact hbad hb
                · exact h960 hbad
              · injection hx with hxe
                subst hxe
                rcases hbad with hbad | hbad
                · exact hbad hbe
                · exact h570 hbad
              · simp only [Option.getD_some] at hl
                exact hle hl
            refine ⟨?_, fun _ => hg⟩
            rw [hg]
            constructor
            · intro h
              simp [isErrorE] at h
            · intro h
              exact absurd h hti

end GetData

namespace GetData

/-- C6 counterexample.  A run with `starting_time = ending_time = 10:00`
raises the time-bounds validation error, but only after the log file has
already been created (file I/O) and the TWS connection established
(network activity): the claim that no network request was issued and no
file written before the error is false. -/
theorem get_data_validation_io_counterexample :
    (get_data_events ⟨true, some 600, some 600, 5000, 30, none, none⟩).2 =
      Except.error ("ending_time must be later than starting_time.") ∧
    Event.netConnect ∈ (get_data_events ⟨true, some 600, some 600, 5000, 30, none, none⟩).1 ∧
    Event.fileCreate ("log.txt") ∈
      (get_data_events ⟨true, some 600, some 600, 5000, 30, none, none⟩).1 := by
  refine ⟨?_, ?_, ?_⟩ <;> decide

/-- C6 amended.  When a connected `get_data` run raises a validation
error (bad time bounds or bad strike bounds), it does so before any
per-unit quote request, before any partition-file event and before the
`dl` directory is created — the only file touched is the log file — but
after the log file has been created, the connection opened and (for
strike validation) the opening price requested. -/
theorem get_data_validation_amended (a : GetDataArgs) (hc : a.connect_ok = true)
    (he : isErrorE (get_data_events a).2 = true) :
    Event.netRequest ("quotes") ∉ (get_data_events a).1 ∧
    (∀ nm, Event.fileAppend nm ∈ (get_data_events a).1 → nm = "log.txt") ∧
    (∀ nm, Event.fileCreate nm ∈ (get_data_events a).1 → nm = "log.txt") ∧
    (∀ nm, Event.dirCreate nm ∉ (get_data_events a).1) := by
  rcases a with ⟨cok, st0, en0, op, ns, ss0, es0⟩
  simp only at hc
  subst hc
  rcases h1 : get_time_intervals 30 st0 en0 with e1 | ivs
  · have hg : get_data_events ⟨true, st0, en0, op, ns, ss0, es0⟩ =
        ([Event.fileCreate ("log.txt"), Event.netConnect], Except.error e1) := by
      simp only [get_data_events, h1]
      rfl
    rw [hg]
    refine ⟨?_, ?_, ?_, ?_⟩
    · show Event.netRequest ("quotes") ∉ [Event.fileCreate ("log.txt"), Event.netConnect]
      decide
    · intro nm h
      simp at h
    · intro nm h
      simp at h
      exact h
    · intro nm h
      simp at h
  · rcases h2 : get_strike_range ns (round_to_multiple op 5) ss0 es0 with e2 | strikes
    · have hg : get_data_events ⟨true, st0, en0, op, ns, ss0, es0⟩ =
          ([Event.fileCreate ("log.txt"), Event.netConnect,
            Event.netRequest ("open_price"), Event.fileAppend ("log.txt"),
            Event.fileAppend ("log.txt")], Except.error e2) := by
        simp only [get_data_events, h1, h2]
        rfl
      rw [hg]
      refine ⟨?_, ?_, ?_, ?_⟩
      · show Event.netRequest ("quotes") ∉
          [Event.fileCreate ("log.txt"), Event.netConnect, Event.netRequest ("open_price"),
           Event.fileAppend ("log.txt"), Event.fileAppend ("log.txt")]
        decide
      · intro nm h
        simp at h
        exact h
      · intro nm h
        simp at h
        exact h
      · intro nm h
        simp at h
    · have hg : (get_data_events ⟨true, st0, en0, op, ns, ss0, es0⟩).2 = Except.ok () := by
        simp only [get_data_events, h1, h2]
        rfl
      rw [hg] at he
      simp [isErrorE] at he

/-- Witness for the amended C6 at the concrete invalid input
`starting_time = ending_time = 10:00`. -/
theorem get_data_validation_amended_witness :
    Event.netRequest ("quotes") ∉
      (get_data_events ⟨true, some 600, some 600, 5000, 30, none, none⟩).1 ∧
    (∀ nm, Event.fileAppend nm ∈
      (get_data_events ⟨true, some 600, some 600, 5000, 30, none, none⟩).1 → nm = "log.txt") ∧
    (∀ nm, Event.fileCreate nm ∈
      (get_data_events ⟨true, some 600, some 600, 5000, 30, none, none⟩).1 → nm = "log.txt") ∧
    (∀ nm, Event.dirCreate nm ∉
      (get_data_events ⟨true, some 600, some 600, 5000, 30, none, none⟩).1) :=
  get_data_validation_amended ⟨true, some 600, some 600, 5000, 30, none, none⟩ rfl (by decide)

end GetData

namespace Intraday

lemma decode_u32_encode (m : ℕ) (h : m < 4294967296) : decode_u32 (encode_u32 m) = m := by
  show m % 256 + 256 * (m / 256 % 256) + 65536 * (m / 65536 % 256) +
    16777216 * (m / 16777216 % 256) = m
  omega

lemma unpack_pack_i32 (n : ℤ) (h1 : -2147483648 ≤ n) (h2 : n < 2147483648) :
    pack_i32 n = Except.ok (encode_u32 ((n % 4294967296).toNat)) ∧
    unpack_i32 (encode_u32 ((n % 4294967296).toNat)) = n := by
  constructor
  · unfold pack_i32
    rw [if_pos ⟨h1, h2⟩]
  · have hnn : 0 ≤ n % 4294967296 := Int.emod_nonneg n (by norm_num)
    have hub : n % 4294967296 < 4294967296 :=
      Int.emod_lt_of_pos n (by norm_num)
    have hcast : (((n % 4294967296).toNat : ℤ)) = n % 4294967296 := Int.toNat_of_nonneg hnn
    have hb : (n % 4294967296).toNat < 4294967296 := by omega
    simp only [unpack_i32, decode_u32_encode _ hb]
    split_ifs with hlt <;> omega

lemma eq_four_of_length (w : List ℕ) (h : w.length = 4) : ∃ a b c d, w = [a, b, c, d] := by
  rcases w with _ | ⟨a, w⟩
  · simp at h
  rcases w with _ | ⟨b, w⟩
  · simp at h
  rcases w with _ | ⟨c, w⟩
  · simp at h
  rcases w with _ | ⟨d, w⟩
  · simp at h
  rcases w with _ | ⟨e, w⟩
  · exact ⟨a, b, c, d, rfl⟩
  · simp at h

lemma read_data_two (w1 w2 w3 w4 w5 v1 v2 v3 v4 v5 : List ℕ)
    (h1 : w1.length = 4) (h2 : w2.length = 4) (h3 : w3.length = 4) (h4 : w4.length = 4)
    (h5 : w5.length = 4) (k1 : v1.length = 4) (k2 : v2.length = 4) (k3 : v3.length = 4)
    (k4 : v4.length = 4) (k5 : v5.length = 4) :
    read_data_from_binary (w1 ++ w2 ++ w3 ++ w4 ++ w5 ++ (v1 ++ v2 ++ v3 ++ v4 ++ v5)) =
      Except.ok
        [(unpack_i32 w1, unpack_i32 w2, unpack_i32 w3, decode_u32 w4, unpack_i32 w5),
         (unpack_i32 v1, unpack_i32 v2, unpack_i32 v3, decode_u32 v4, unpack_i32 v5)] := by
  obtain ⟨a1, a2, a3, a4, rfl⟩ := eq_four_of_length w1 h1
  obtain ⟨b1, b2, b3, b4, rfl⟩ := eq_four_of_length w2 h2
  obtain ⟨c1, c2, c3, c4, rfl⟩ := eq_four_of_length w3 h3
  obtain ⟨d1, d2, d3, d4, rfl⟩ := eq_four_of_length w4 h4
  obtain ⟨e1, e2, e3, e4, rfl⟩ := eq_four_of_length w5 h5
  obtain ⟨p1, p2, p3, p4, rfl⟩ := eq_four_of_length v1 k1
  obtain ⟨q1, q2, q3, q4, rfl⟩ := eq_four_of_length v2 k2
  obtain ⟨r1, r2, r3, r4, rfl⟩ := eq_four_of_length v3 k3
  obtain ⟨u1, u2, u3, u4, rfl⟩ := eq_four_of_length v4 k4
  obtain ⟨t1, t2, t3, t4, rfl⟩ := eq_four_of_length v5 k5
  rfl

lemma length_encode_u32 (m : ℕ) : (encode_u32 m).length = 4 := rfl

/-- C10.  Round trip of the fixed binary record format: the 40 bytes
that `file_write` (binary mode) appends for one record
`(timestamp, strike, right, bid, ask)` decode under
`read_data_from_binary` to exactly two tuples, in order:
`(timestamp, code(right), 0, bid, strike)` then
`(timestamp, code(right), 1, ask, strike)`, where `code` maps Call "C"
to 0 and Put "P" to 1; the integer fields are recovered exactly, and the
binary32 price bit patterns are recovered unchanged. -/
theorem binary_roundtrip_spec (time strike : ℤ) (right : String) (bidBits askBits : ℕ)
    (ht1 : -2147483648 ≤ time) (ht2 : time < 2147483648)
    (hs1 : -2147483648 ≤ strike) (hs2 : strike < 2147483648)
    (hr : right = "C" ∨ right = "P")
    (hbid : bidBits < 4294967296) (hask : askBits < 4294967296) :
    ∃ bytes, file_write [] time strike right bidBits askBits = Except.ok bytes ∧
      read_data_from_binary bytes =
        Except.ok
          [(time, if right = "C" then 0 else 1, 0, bidBits, strike),
           (time, if right = "C" then 0 else 1, 1, askBits, strike)] := by
  have pt := unpack_pack_i32 time ht1 ht2
  have ps := unpack_pack_i32 strike hs1 hs2
  have p0 := unpack_pack_i32 0 (by norm_num) (by norm_num)
  have p1 := unpack_pack_i32 1 (by norm_num) (by norm_num)
  have pbid : pack_f32 bidBits = Except.ok (encode_u32 bidBits) := by
    unfold pack_f32
    rw [if_pos hbid]
  have pask : pack_f32 askBits = Except.ok (encode_u32 askBits) := by
    unfold pack_f32
    rw [if_pos hask]
  have hdb : decode_u32 (encode_u32 bidBits) = bidBits := decode_u32_encode bidBits hbid
  have hda : decode_u32 (encode_u32 askBits) = askBits := decode_u32_encode askBits hask
  rcases hr with rfl | rfl
  · have hp1 : pack_iiifi time 0 0 bidBits strike =
        Except.ok (encode_u32 ((time % 4294967296).toNat) ++
          encode_u32 (((0 : ℤ) % 4294967296).toNat) ++ encode_u32 (((0 : ℤ) % 4294967296).toNat) ++
          encode_u32 bidBits ++ encode_u32 ((strike % 4294967296).toNat)) := by
      simp only [pack_iiifi, pt.1, p0.1, pbid, ps.1]
    have hp2 : pack_iiifi time 0 1 askBits strike =
        Except.ok (encode_u32 ((time % 4294967296).toNat) ++
          encode_u32 (((0 : ℤ) % 4294967296).toNat) ++ encode_u32 (((1 : ℤ) % 4294967296).toNat) ++
          encode_u32 askBits ++ encode_u32 ((strike % 4294967296).toNat)) := by
      simp only [pack_iiifi, pt.1, p0.1, p1.1, pask, ps.1]
    refine ⟨encode_u32 ((time % 4294967296).toNat) ++ encode_u32 (((0 : ℤ) % 4294967296).toNat) ++
      encode_u32 (((0 : ℤ) % 4294967296).toNat) ++ encode_u32 bidBits ++
      encode_u32 ((strike % 4294967296).toNat) ++
      (encode_u32 ((time % 4294967296).toNat) ++ encode_u32 (((0 : ℤ) % 4294967296).toNat) ++
       encode_u32 (((1 : ℤ) % 4294967296).toNat) ++ encode_u32 askBits ++
       encode_u32 ((strike % 4294967296).toNat)), ?_, ?_⟩
    · have hcp : cp ("C") = Except.ok 0 := rfl
      simp only [file_write, hcp, hp1, hp2]
      rw [List.nil_append]
    · rw [read_data_two _ _ _ _ _ _ _ _ _ _
        (length_encode_u32 _) (length_encode_u32 _) (length_encode_u32 _)
        (length_encode_u32 _) (length_encode_u32 _) (length_encode_u32 _)
        (length_encode_u32 _) (length_encode_u32 _) (length_encode_u32 _)
        (length_encode_u32 _)]
      rw [pt.2, p0.2, p1.2, ps.2, hdb, hda]
      norm_num
  · have hp1 : pack_iiifi time 1 0 bidBits strike =
        Except.ok (encode_u32 ((time % 4294967296).toNat) ++
          encode_u32 (((1 : ℤ) % 4294967296).toNat) ++ encode_u32 (((0 : ℤ) % 4294967296).toNat) ++
          encode_u32 bidBits ++ encode_u32 ((strike % 4294967296).toNat)) := by
      simp only [pack_iiifi, pt.1, p0.1, p1.1, pbid, ps.1]
    have hp2 : pack_iiifi time 1 1 askBits strike =
        Except.ok (encode_u32 ((time % 4294967296).toNat) ++
          encode_u32 (((1 : ℤ) % 4294967296).toNat) ++ encode_u32 (((1 : ℤ) % 4294967296).toNat) ++
          encode_u32 askBits ++ encode_u32 ((strike % 4294967296).toNat)) := by
      simp only [pack_iiifi, pt.1, p1.1, pask, ps.1]
    refine ⟨encode_u32 ((time % 4294967296).toNat) ++ encode_u32 (((1 : ℤ) % 4294967296).toNat) ++
      encode_u32 (((0 : ℤ) % 4294967296).toNat) ++ encode_u32 bidBits ++
      encode_u32 ((strike % 4294967296).toNat) ++
      (encode_u32 ((time % 4294967296).toNat) ++ encode_u32 (((1 : ℤ) % 4294967296).toNat) ++
       encode_u32 (((1 : ℤ) % 4294967296).toNat) ++ encode_u32 askBits ++
       encode_u32 ((strike % 4294967296).toNat)), ?_, ?_⟩
    · have hcp : cp ("P") = Except.ok 1 := rfl
      simp only [file_write, hcp, hp1, hp2]
      rw [List.nil_append]
    · rw [read_data_two _ _ _ _ _ _ _ _ _ _
        (length_encode_u32 _) (length_encode_u32 _) (length_encode_u32 _)
        (length_encode_u32 _) (length_encode_u32 _) (length_encode_u32 _)
        (length_encode_u32 _) (length_encode_u32 _) (length_encode_u32 _)
        (length_encode_u32 _)]
      rw [pt.2, p0.2, p1.2, ps.2, hdb, hda,
        if_neg (show ¬ ("P" : String) = "C" by decide)]

/-- Witness for C10 at a concrete record: timestamp 93000000 (09:30:00
with milliseconds), strike 5400, right Call, bid bits 1067030938, ask
bits 1067869798. -/
theorem binary_roundtrip_spec_witness :
    ∃ bytes, file_write [] 93000000 5400 ("C") 1067030938 1067869798 = Except.ok bytes ∧
      read_data_from_binary bytes =
        Except.ok
          [(93000000, if ("C" : String) = "C" then 0 else 1, 0, 1067030938, 5400),
           (93000000, if ("C" : String) = "C" then 0 else 1, 1, 1067869798, 5400)] :=
  binary_roundtrip_spec 93000000 5400 ("C") 1067030938 1067869798
    (by norm_num) (by norm_num) (by norm_num) (by norm_num) (Or.inl rfl)
    (by norm_num) (by norm_num)

end Intraday
